import Mathlib

/-!
# Quantum distribution analyzer: `src/app/page.js`

A shallow embedding of the two functions of the page component:

* `analyzeQuantumData` (page.js lines 41-76), the statistics routine;
* `fetchQuantumData` (page.js lines 15-39), one fetch-and-analyse step on the
  page state `(data, loading, error, analysis)`.

JavaScript numbers are embedded twice.  `analyzeQuantumData` works over a linearly
ordered field `α` (exact arithmetic), with `Math.sqrt` and `Math.log2` the two fields
of `JsMath α`; over `ℝ` they are `Real.sqrt` and `Real.logb 2`.
`analyzeQuantumDataWith` is the same body over an arbitrary arithmetic `JsArith`;
`fieldArith` makes it `analyzeQuantumData` again and `doubleArith` runs it on IEEE 754
binary64 values with round to nearest, ties to even, where sums round, depend on the
order of the summands and overflow.  A distribution is the list of
`[state, probability]` pairs that `Object.entries` enumerates.
-/

namespace QuantumAnalyzer

/-- The two `Math` functions that `analyzeQuantumData` calls. -/
structure JsMath (α : Type) where
  sqrt : α → α
  log2 : α → α

/-- One `[state, prob]` pair of `Object.entries(probabilities)`. -/
abbrev Entry (α : Type) := String × α

/-- The object literal returned by `analyzeQuantumData` (page.js lines 64-75). -/
structure AnalysisResult (α : Type) where
  totalStates : Nat
  totalProbability : α
  mean : α
  variance : α
  stdDev : α
  entropy : α
  significantStates : Nat
  dominantStates : List (Entry α)
  minProbability : α
  maxProbability : α

section Analyzer

variable {α : Type} [LinearOrderedField α]

/-- The comparator `(a, b) => b[1] - a[1]` of page.js line 46. -/
def compareDesc (a b : Entry α) : α := b.2 - a.2

/-- `Array.prototype.sort(cmp)`: a stable sort in which `a` may stand before `b`
when `cmp(a, b) <= 0`.  For a consistent comparator ECMAScript fixes the result
(the stable sorted permutation), so insertion sort computes it. -/
def jsSort {β : Type} (cmp : β → β → α) (xs : List β) : List β :=
  xs.insertionSort (fun a b => cmp a b ≤ 0)

/-- Array indexing `xs[i]` with a JavaScript integer index: `none` stands for
`undefined`, the value of every index outside `0 .. length - 1`. -/
def jsIndex {β : Type} (xs : List β) (i : Int) : Option β :=
  if 0 ≤ i then xs[i.toNat]? else none

/-- The `message` of the `TypeError` raised by `undefined[1]`. -/
def undefinedIndexError : String :=
  "Cannot read properties of undefined (reading '1')"

/-- Embedding of `analyzeQuantumData` (page.js lines 41-76).  `states.sort` sorts in
place and returns the same array, so after line 46 `states` and `sortedStates` are
one array: every later use of `states` reads the sorted order. -/
def analyzeQuantumData (m : JsMath α) (probabilities : List (Entry α)) :
    Except String (AnalysisResult α) :=
  let states := probabilities
  let total := states.foldl (fun sum e => sum + e.2) 0
  let sortedStates := jsSort compareDesc states
  let states := sortedStates
  let mean := total / (states.length : α)
  let variance :=
    states.foldl (fun sum e => sum + (e.2 - mean) ^ 2) 0 / (states.length : α)
  let stdDev := m.sqrt variance
  let dominantStates := sortedStates.take 10
  let entropy :=
    -states.foldl (fun sum e => if e.2 > 0 then sum + e.2 * m.log2 e.2 else sum) 0
  let significantStates := (states.filter (fun e => e.2 > 0.001)).length
  match jsIndex sortedStates ((sortedStates.length : Int) - 1), jsIndex sortedStates 0 with
  | some last, some first =>
    Except.ok
      { totalStates := states.length
        totalProbability := total
        mean := mean
        variance := variance
        stdDev := stdDev
        entropy := entropy
        significantStates := significantStates
        dominantStates := dominantStates
        minProbability := last.2
        maxProbability := first.2 }
  | _, _ => Except.error undefinedIndexError



/-! ## The page state and one `fetchQuantumData` call -/

/-- A parsed JSON value, the result of `response.json()`.  An object is the list of
its own properties in enumeration order. -/
inductive Json (α : Type) where
  | null : Json α
  | bool (b : Bool) : Json α
  | num (x : α) : Json α
  | str (s : String) : Json α
  | arr (xs : List (Json α)) : Json α
  | obj (kvs : List (String × Json α)) : Json α

/-- The property read `result.probabilities`: a `TypeError` on `null`, the own
property of an object, and `undefined` (here `none`) when an object lacks the key
or the value is a primitive or an array. -/
def getProbabilities : Json α → Except String (Option (Json α))
  | Json.null => Except.error "Cannot read properties of null (reading 'probabilities')"
  | Json.obj kvs => Except.ok (kvs.lookup "probabilities")
  | _ => Except.ok none

/-- JavaScript truthiness of a JSON value (the test of page.js line 30). -/
def truthy : Json α → Bool
  | Json.null => false
  | Json.bool b => b
  | Json.num x => decide (x ≠ 0)
  | Json.str s => decide (s ≠ "")
  | Json.arr _ => true
  | Json.obj _ => true

/-- `Object.entries` of a JSON value: the own properties of an object, the elements
of an array under their indices, nothing for a number or a boolean.  (A string has
its characters, which are no numbers, and `null` never reaches line 31: both are
left out here.) -/
def objectEntries : Json α → Option (List (String × Json α))
  | Json.obj kvs => some kvs
  | Json.arr xs => some (xs.enum.map (fun p => (toString p.1, p.2)))
  | Json.num _ => some []
  | Json.bool _ => some []
  | Json.str _ => none
  | Json.null => none

/-- The entries of a JSON value when every one of them holds a number, that is a
ProbabilityDistribution; `none` otherwise. -/
def asDistribution (v : Json α) : Option (List (Entry α)) :=
  match objectEntries v with
  | some kvs =>
    kvs.mapM (fun kv =>
      match kv.2 with
      | Json.num x => some (kv.1, x)
      | _ => none)
  | none => none

/-- The call `analyzeQuantumData(result.probabilities)` of page.js line 31 on a JSON
value.  When all entries are numbers it is `analyzeQuantumData` on them; what
JavaScript's coercions compute on entries that are no numbers is the parameter
`other`. -/
def analyzeJson (m : JsMath α) (other : Json α → Except String (AnalysisResult α))
    (v : Json α) : Except String (AnalysisResult α) :=
  match asDistribution v with
  | some states => analyzeQuantumData m states
  | none => other v

/-- The four `useState` cells of the page (page.js lines 6-9). -/
structure PageState (α : Type) where
  data : Option (Json α)
  loading : Bool
  error : Option String
  analysis : Option (AnalysisResult α)

/-- The state of a freshly mounted page. -/
def initialState : PageState α :=
  { data := none, loading := true, error := none, analysis := none }

/-- What the network does during one call: `fetch` rejects with an error message, or
it resolves to a response with its `ok` flag, its status and the outcome of
`response.json()` (the parsed body, or the message of the error it rejects with). -/
inductive FetchOutcome (α : Type) where
  | rejected (message : String) : FetchOutcome α
  | response (ok : Bool) (status : Nat) (body : Except String (Json α)) : FetchOutcome α

/-- The `try` block of `fetchQuantumData` (page.js lines 16-33): the state it leaves
and the message of the error it throws, if any. -/
def fetchTry (m : JsMath α) (other : Json α → Except String (AnalysisResult α))
    (s : PageState α) (o : FetchOutcome α) : PageState α × Option String :=
  let s := { s with loading := true }
  let s := { s with error := none }
  match o with
  | FetchOutcome.rejected message => (s, some message)
  | FetchOutcome.response ok status body =>
    if !ok then (s, some ("API request failed: " ++ toString status))
    else
      match body with
      | Except.error message => (s, some message)
      | Except.ok result =>
        let s := { s with data := some result }
        match getProbabilities result with
        | Except.error message => (s, some message)
        | Except.ok none => (s, none)
        | Except.ok (some probabilities) =>
          if truthy probabilities then
            match analyzeJson m other probabilities with
            | Except.ok analyzed => ({ s with analysis := some analyzed }, none)
            | Except.error message => (s, some message)
          else (s, none)

/-- Embedding of `fetchQuantumData` (page.js lines 15-39): the `try` block, then
`catch` storing `err.message`, then `finally` clearing `loading`. -/
def fetchQuantumData (m : JsMath α) (other : Json α → Except String (AnalysisResult α))
    (s : PageState α) (o : FetchOutcome α) : PageState α :=
  let r := fetchTry m other s o
  let s := match r.2 with
    | some message => { r.1 with error := some message }
    | none => r.1
  { s with loading := false }

/-- The comparator of line 46 orders any two entries. -/
instance compareDesc_total : IsTotal (Entry α) (fun a b => compareDesc a b ≤ 0) :=
  ⟨fun a b => by
    simp only [compareDesc, sub_nonpos]
    exact le_total _ _⟩

/-- The order induced by the comparator of line 46 is transitive. -/
instance compareDesc_trans : IsTrans (Entry α) (fun a b => compareDesc a b ≤ 0) :=
  ⟨fun a b c hab hbc => by
    simp only [compareDesc, sub_nonpos] at *
    exact le_trans hbc hab⟩

/-- Reading of the spec's words "exactly one state has probability 1 and the rest
have probability 0". -/
def OneHot (states : List (Entry α)) : Prop :=
  states.countP (fun e => decide (e.2 = 1)) = 1 ∧ ∀ e ∈ states, e.2 ≠ 1 → e.2 = 0

instance OneHot.instDecidable (states : List (Entry α)) : Decidable (OneHot states) := by
  unfold OneHot
  infer_instance

/-! ## IEEE doubles

The same function over the arithmetic the page runs on.  `JsArith` lists the number
operations `analyzeQuantumData` uses, `analyzeQuantumDataWith` is the body of the
function over any such arithmetic, and `doubleArith` is IEEE 754 binary64 with
round to nearest, ties to even. -/

/-- The number operations of page.js lines 41-76. -/
structure JsArith (ν : Type) where
  zero : ν
  threshold : ν
  ofNat : Nat → ν
  neg : ν → ν
  add : ν → ν → ν
  sub : ν → ν → ν
  mul : ν → ν → ν
  div : ν → ν → ν
  sq : ν → ν
  gt : ν → ν → Bool
  sqrt : ν → ν
  log2 : ν → ν

/-- Embedding of `analyzeQuantumData` (page.js lines 41-76) over an arithmetic `A`:
`A.zero` is the literal `0`, `A.threshold` the literal `0.001`, `A.ofNat` reads
`states.length` as a number and `A.sq x` is `Math.pow(x, 2)`.  The sort puts `a`
before `b` unless `cmp(a, b) > 0`; a `NaN` comparison counts as `0`. -/
def analyzeQuantumDataWith {ν : Type} (A : JsArith ν) (probabilities : List (String × ν)) :
    Except String (AnalysisResult ν) :=
  let states := probabilities
  let total := states.foldl (fun sum e => A.add sum e.2) A.zero
  let sortedStates :=
    states.insertionSort (fun a b => A.gt (A.sub b.2 a.2) A.zero = false)
  let states := sortedStates
  let mean := A.div total (A.ofNat states.length)
  let variance :=
    A.div (states.foldl (fun sum e => A.add sum (A.sq (A.sub e.2 mean))) A.zero)
      (A.ofNat states.length)
  let stdDev := A.sqrt variance
  let dominantStates := sortedStates.take 10
  let entropy :=
    A.neg (states.foldl
      (fun sum e => if A.gt e.2 A.zero then A.add sum (A.mul e.2 (A.log2 e.2)) else sum) A.zero)
  let significantStates := (states.filter (fun e => A.gt e.2 A.threshold)).length
  match jsIndex sortedStates ((sortedStates.length : Int) - 1), jsIndex sortedStates 0 with
  | some last, some first =>
    Except.ok
      { totalStates := states.length
        totalProbability := total
        mean := mean
        variance := variance
        stdDev := stdDev
        entropy := entropy
        significantStates := significantStates
        dominantStates := dominantStates
        minProbability := last.2
        maxProbability := first.2 }
  | _, _ => Except.error undefinedIndexError

/-- Exact arithmetic in an ordered field, the arithmetic of `analyzeQuantumData`. -/
def fieldArith (m : JsMath α) : JsArith α :=
  { zero := 0
    threshold := 0.001
    ofNat := fun n => (n : α)
    neg := fun x => -x
    add := fun x y => x + y
    sub := fun x y => x - y
    mul := fun x y => x * y
    div := fun x y => x / y
    sq := fun x => x ^ 2
    gt := fun x y => decide (x > y)
    sqrt := m.sqrt
    log2 := m.log2 }

/-- An IEEE 754 binary64 value.  A finite value is a whole number of units of
`2 ^ (-1074)`, the smallest positive double, so `fin n` is the number
`n * 2 ^ (-1074)`; the two zeros are identified. -/
inductive Dbl where
  | fin (n : Int) : Dbl
  | inf (negative : Bool) : Dbl
  | nan : Dbl
deriving DecidableEq

/-- Number of binary digits of `n`, for `n < 2 ^ 8192`: the shifts by 4096, ..., 1
that leave a non-zero value add up to the position of the leading digit. -/
def bitLength (n : Nat) : Nat :=
  if n = 0 then 0
  else
    ([4096, 2048, 1024, 512, 256, 128, 64, 32, 16, 8, 4, 2, 1].foldl
      (fun (acc : Nat × Nat) k =>
        if acc.1 >>> k = 0 then acc else (acc.1 >>> k, acc.2 + k)) (n, 0)).2 + 1

/-- The whole number nearest to `p / q`, a tie going to the even one. -/
def roundHalfEven (p q : Nat) : Nat :=
  let f := p / q
  let r := p % q
  if 2 * r < q then f
  else if q < 2 * r then f + 1
  else if f % 2 = 0 then f else f + 1

/-- Rounding to binary64: the double nearest to `p / q` units, with the given sign.
A value of at most 53 binary digits in units is rounded to a whole number of units
(subnormals and the lowest binade); a longer one keeps its 53 leading digits; a result
of `2 ^ 2098` units (`2 ^ 1024`) or more overflows to infinity. -/
def round64 (negative : Bool) (p q : Nat) : Dbl :=
  let t := p / q
  let e := max (bitLength t) 53 - 53
  let n := roundHalfEven p (q <<< e) <<< e
  if n >>> 2098 ≠ 0 then Dbl.inf negative
  else Dbl.fin (if negative then -(n : Int) else (n : Int))

/-- The double `m * 2 ^ e`, for `e ≥ -1074`. -/
def Dbl.dyadic (m : Int) (e : Int) : Dbl :=
  Dbl.fin (m * (((1 : Nat) <<< (e + 1074).toNat : Nat) : Int))

/-- The double nearest to the decimal `p / q`, as `JSON.parse` reads a literal. -/
def Dbl.ofDecimal (p q : Nat) : Dbl := round64 false (p <<< 1074) q

/-- The double nearest to a natural number. -/
def Dbl.ofNat (n : Nat) : Dbl := round64 false (n <<< 1074) 1

/-- The double nearest to a whole number of units. -/
def Dbl.ofUnits (z : Int) : Dbl := round64 (decide (z < 0)) z.natAbs 1

/-- The rational value of a finite double (0 for the infinities and `NaN`). -/
def Dbl.toRat : Dbl → ℚ
  | Dbl.fin n => (n : ℚ) / 2 ^ 1074
  | _ => 0

/-- IEEE negation. -/
def Dbl.neg : Dbl → Dbl
  | Dbl.fin x => Dbl.fin (-x)
  | Dbl.inf s => Dbl.inf (!s)
  | Dbl.nan => Dbl.nan

/-- IEEE addition: the exact sum, rounded. -/
def Dbl.add : Dbl → Dbl → Dbl
  | Dbl.fin x, Dbl.fin y => Dbl.ofUnits (x + y)
  | Dbl.fin _, Dbl.inf s => Dbl.inf s
  | Dbl.inf s, Dbl.fin _ => Dbl.inf s
  | Dbl.inf s, Dbl.inf t => if s = t then Dbl.inf s else Dbl.nan
  | _, _ => Dbl.nan

/-- IEEE subtraction. -/
def Dbl.sub (x y : Dbl) : Dbl := x.add y.neg

/-- IEEE multiplication: the exact product, rounded. -/
def Dbl.mul : Dbl → Dbl → Dbl
  | Dbl.fin x, Dbl.fin y =>
    round64 (xor (decide (x < 0)) (decide (y < 0))) (x.natAbs * y.natAbs) (1 <<< 1074)
  | Dbl.fin x, Dbl.inf s => if x = 0 then Dbl.nan else Dbl.inf (xor (decide (x < 0)) s)
  | Dbl.inf s, Dbl.fin y => if y = 0 then Dbl.nan else Dbl.inf (xor s (decide (y < 0)))
  | Dbl.inf s, Dbl.inf t => Dbl.inf (xor s t)
  | _, _ => Dbl.nan

/-- IEEE division: the exact quotient, rounded; `0 / 0` is `NaN`. -/
def Dbl.div : Dbl → Dbl → Dbl
  | Dbl.fin x, Dbl.fin y =>
    if y = 0 then (if x = 0 then Dbl.nan else Dbl.inf (decide (x < 0)))
    else round64 (xor (decide (x < 0)) (decide (y < 0))) (x.natAbs <<< 1074) y.natAbs
  | Dbl.fin _, Dbl.inf _ => Dbl.fin 0
  | Dbl.inf s, Dbl.fin y => Dbl.inf (xor s (decide (y < 0)))
  | Dbl.inf _, Dbl.inf _ => Dbl.nan
  | _, _ => Dbl.nan

/-- The comparison `x > y`; false when either side is `NaN`. -/
def Dbl.gt : Dbl → Dbl → Bool
  | Dbl.fin x, Dbl.fin y => decide (y < x)
  | Dbl.fin _, Dbl.inf s => s
  | Dbl.inf s, Dbl.fin _ => !s
  | Dbl.inf s, Dbl.inf t => !s && t
  | _, _ => false

/-- IEEE binary64 arithmetic.  `Math.pow(x, 2)` is the rounded product `x * x`;
`Math.sqrt` and `Math.log2` are those of `m`. -/
def doubleArith (m : JsMath Dbl) : JsArith Dbl :=
  { zero := Dbl.fin 0
    threshold := Dbl.ofDecimal 1 1000
    ofNat := Dbl.ofNat
    neg := Dbl.neg
    add := Dbl.add
    sub := Dbl.sub
    mul := Dbl.mul
    div := Dbl.div
    sq := fun x => x.mul x
    gt := Dbl.gt
    sqrt := m.sqrt
    log2 := m.log2 }

/-! ## Helper lemmas -/

theorem foldl_add_eq_sum {β : Type} (f : β → α) (l : List β) (a : α) :
    l.foldl (fun sum e => sum + f e) a = a + (l.map f).sum := by
  induction l generalizing a with
  | nil => simp
  | cons x xs ih => simp [ih, add_assoc]

theorem foldl_entropy_eq_sum (log2 : α → α) (l : List (Entry α)) (a : α) :
    l.foldl (fun sum e => if e.2 > 0 then sum + e.2 * log2 e.2 else sum) a
      = a + (l.map (fun e => if e.2 > 0 then e.2 * log2 e.2 else 0)).sum := by
  induction l generalizing a with
  | nil => simp
  | cons x xs ih =>
    by_cases hx : x.2 > 0
    · simp [ih, hx, add_assoc]
    · simp [ih, hx]

theorem jsSort_perm (states : List (Entry α)) : (jsSort compareDesc states).Perm states :=
  List.perm_insertionSort _ _

theorem jsSort_length (states : List (Entry α)) :
    (jsSort compareDesc states).length = states.length :=
  (jsSort_perm states).length_eq

theorem jsSort_sorted (states : List (Entry α)) :
    (jsSort compareDesc states).Pairwise (fun a b => b.2 ≤ a.2) := by
  have h := List.sorted_insertionSort (fun a b : Entry α => compareDesc a b ≤ 0) states
  unfold List.Sorted at h
  exact h.imp (fun hab => by simpa only [compareDesc, sub_nonpos] using hab)

theorem jsSort_ne_nil {states : List (Entry α)} (h : states ≠ []) :
    jsSort compareDesc states ≠ [] := by
  intro h0
  have := jsSort_length states
  rw [h0] at this
  exact h (List.length_eq_zero.mp this.symm)

theorem jsIndex_zero {β : Type} (xs : List β) : jsIndex xs 0 = xs.head? := by
  cases xs <;> simp [jsIndex]

theorem jsIndex_last {β : Type} (xs : List β) (h : xs ≠ []) :
    jsIndex xs ((xs.length : Int) - 1) = some (xs.getLast h) := by
  have hpos : 0 < xs.length := List.length_pos.mpr h
  have h1 : (0 : Int) ≤ (xs.length : Int) - 1 := by omega
  have h2 : ((xs.length : Int) - 1).toNat = xs.length - 1 := by omega
  simp [jsIndex, h1, h2, List.getLast_eq_getElem]

theorem countP_disjoint_add_le {β : Type} (p q : β → Bool) (hpq : ∀ x, p x = true → q x = false)
    (l : List β) : l.countP p + l.countP q ≤ l.length := by
  induction l with
  | nil => simp
  | cons x xs ih =>
    by_cases hp : p x = true
    · have hq := hpq x hp
      simp only [List.countP_cons, hp, hq, List.length_cons]
      simp only [if_true, Bool.false_eq_true, if_false]
      omega
    · have hp0 : p x = false := by simpa using hp
      simp only [List.countP_cons, hp0, List.length_cons, Bool.false_eq_true, if_false]
      split <;> omega

theorem pairwise_getLast_le {l : List (Entry α)} (hs : l.Pairwise (fun a b => b.2 ≤ a.2))
    (hne : l ≠ []) : ∀ e ∈ l, (l.getLast hne).2 ≤ e.2 := by
  intro e he
  have hsplit := List.dropLast_append_getLast hne
  rw [← hsplit] at hs he
  rw [List.pairwise_append] at hs
  rcases List.mem_append.mp he with h1 | h1
  · exact hs.2.2 e h1 _ (List.mem_singleton_self _)
  · rw [List.mem_singleton.mp h1]

theorem pairwise_le_head {l : List (Entry α)} (hs : l.Pairwise (fun a b => b.2 ≤ a.2))
    (hne : l ≠ []) : ∀ e ∈ l, e.2 ≤ (l.head hne).2 := by
  intro e he
  cases l with
  | nil => exact absurd rfl hne
  | cons a t =>
    rw [List.pairwise_cons] at hs
    rcases List.mem_cons.mp he with h1 | h1
    · rw [h1]; exact le_refl _
    · exact hs.1 e h1


/-- On a non-empty distribution both index reads succeed and the result record is
the one assembled at page.js lines 64-75. -/
theorem analyzeQuantumData_ok (m : JsMath α) (states : List (Entry α)) (h : states ≠ []) :
    analyzeQuantumData m states = Except.ok
      { totalStates := (jsSort compareDesc states).length
        totalProbability := states.foldl (fun sum e => sum + e.2) 0
        mean := states.foldl (fun sum e => sum + e.2) 0 / ((jsSort compareDesc states).length : α)
        variance :=
          (jsSort compareDesc states).foldl (fun sum e => sum +
            (e.2 - states.foldl (fun sum e => sum + e.2) 0
              / ((jsSort compareDesc states).length : α)) ^ 2) 0
            / ((jsSort compareDesc states).length : α)
        stdDev := m.sqrt
          ((jsSort compareDesc states).foldl (fun sum e => sum +
            (e.2 - states.foldl (fun sum e => sum + e.2) 0
              / ((jsSort compareDesc states).length : α)) ^ 2) 0
            / ((jsSort compareDesc states).length : α))
        entropy := -(jsSort compareDesc states).foldl
          (fun sum e => if e.2 > 0 then sum + e.2 * m.log2 e.2 else sum) 0
        significantStates := ((jsSort compareDesc states).filter (fun e => e.2 > 0.001)).length
        dominantStates := (jsSort compareDesc states).take 10
        minProbability := ((jsSort compareDesc states).getLast (jsSort_ne_nil h)).2
        maxProbability := ((jsSort compareDesc states).head (jsSort_ne_nil h)).2 } := by
  have hs := jsSort_ne_nil h
  have h0 : jsIndex (jsSort compareDesc states) 0
      = some ((jsSort compareDesc states).head hs) := by
    rw [jsIndex_zero, List.head?_eq_head hs]
  have h1 := jsIndex_last (jsSort compareDesc states) hs
  simp only [analyzeQuantumData, h0, h1]


/-! ## Totals, counts, variance -/

/-- C7 (amended): over exact arithmetic, on every non-empty distribution
`analyzeQuantumData` returns a result whose
`totalStates` is the number of input entries, whose `totalProbability` is the sum of
the input probabilities and whose `mean` is `totalProbability / totalStates`. -/
theorem analyzeQuantumData_totals (m : JsMath α) (states : List (Entry α))
    (h : states ≠ []) :
    ∃ r, analyzeQuantumData m states = Except.ok r ∧
      r.totalStates = states.length ∧
      r.totalProbability = (states.map Prod.snd).sum ∧
      r.mean = r.totalProbability / (r.totalStates : α) := by
  refine ⟨_, analyzeQuantumData_ok m states h, ?_, ?_, ?_⟩
  · exact jsSort_length states
  · simp only [foldl_add_eq_sum, zero_add]
  · rfl

/-- C8: on every non-empty distribution `significantStates` is the number of input
entries whose probability is strictly greater than 0.001; an entry of probability
exactly 0.001 is not counted, and the count is at most `totalStates`. -/
theorem analyzeQuantumData_significant (m : JsMath α) (states : List (Entry α))
    (h : states ≠ []) :
    ∃ r, analyzeQuantumData m states = Except.ok r ∧
      r.significantStates = states.countP (fun e => decide (e.2 > 0.001)) ∧
      r.significantStates + states.countP (fun e => decide (e.2 = 0.001))
        ≤ r.totalStates ∧
      r.significantStates ≤ r.totalStates := by
  refine ⟨_, analyzeQuantumData_ok m states h, ?_, ?_, ?_⟩
  · show ((jsSort compareDesc states).filter _).length = _
    rw [← List.countP_eq_length_filter]
    exact (jsSort_perm states).countP_eq _
  · show ((jsSort compareDesc states).filter _).length + _ ≤ (jsSort compareDesc states).length
    rw [← List.countP_eq_length_filter, (jsSort_perm states).countP_eq, jsSort_length]
    exact countP_disjoint_add_le _ _ (fun x hx => by
      simp only [decide_eq_true_eq] at hx
      simp only [decide_eq_false_iff_not]
      exact ne_of_gt hx) states
  · show ((jsSort compareDesc states).filter _).length ≤ (jsSort compareDesc states).length
    exact List.length_filter_le _ _

/-- C6 (amended): over exact arithmetic, on every non-empty distribution `variance`
is the population variance of the
input probabilities (the squared deviations from the returned mean, summed over the
input entries and divided by the number of entries), and `stdDev` is `Math.sqrt` of
it; the sum does not depend on the in-place sort. -/
theorem analyzeQuantumData_variance (m : JsMath α) (states : List (Entry α))
    (h : states ≠ []) :
    ∃ r, analyzeQuantumData m states = Except.ok r ∧
      r.variance = (states.map (fun e => (e.2 - r.mean) ^ 2)).sum / (states.length : α) ∧
      r.stdDev = m.sqrt r.variance := by
  refine ⟨_, analyzeQuantumData_ok m states h, ?_, rfl⟩
  simp only [foldl_add_eq_sum, zero_add, jsSort_length]
  congr 1
  exact ((jsSort_perm states).map _).sum_eq


/-! ## Ordering: extrema and dominant states -/

/-- C2: on every non-empty distribution `maxProbability` and `minProbability` are
probabilities of the input, and every input probability `p` satisfies
`minProbability ≤ p ≤ maxProbability`: they are the maximum and the minimum. -/
theorem analyzeQuantumData_extrema (m : JsMath α) (states : List (Entry α))
    (h : states ≠ []) :
    ∃ r, analyzeQuantumData m states = Except.ok r ∧
      r.maxProbability ∈ states.map Prod.snd ∧
      r.minProbability ∈ states.map Prod.snd ∧
      ∀ e ∈ states, r.minProbability ≤ e.2 ∧ e.2 ≤ r.maxProbability := by
  have hne := jsSort_ne_nil h
  have hmem : ∀ e, e ∈ jsSort compareDesc states ↔ e ∈ states :=
    fun e => (jsSort_perm states).mem_iff
  refine ⟨_, analyzeQuantumData_ok m states h, ?_, ?_, ?_⟩
  · exact List.mem_map_of_mem _ ((hmem _).mp (List.head_mem hne))
  · exact List.mem_map_of_mem _ ((hmem _).mp (List.getLast_mem hne))
  · intro e he
    exact ⟨pairwise_getLast_le (jsSort_sorted states) hne e ((hmem e).mpr he),
      pairwise_le_head (jsSort_sorted states) hne e ((hmem e).mpr he)⟩

/-- C1: on every non-empty distribution with unique keys `dominantStates` has length
`min 10 n`, is sorted non-increasing by probability, has each key at most once, and
together with the entries left out is a rearrangement of the input in which every
entry left out has a probability at most that of every dominant entry. -/
theorem analyzeQuantumData_dominant (m : JsMath α) (states : List (Entry α))
    (h : states ≠ []) (hkeys : (states.map Prod.fst).Nodup) :
    ∃ r, analyzeQuantumData m states = Except.ok r ∧
      r.dominantStates.length = min 10 states.length ∧
      List.Sorted (fun p q => p ≥ q) (r.dominantStates.map Prod.snd) ∧
      (r.dominantStates.map Prod.fst).Nodup ∧
      (∀ d ∈ r.dominantStates, d ∈ states) ∧
      (∃ rest, (r.dominantStates ++ rest).Perm states ∧
        ∀ d ∈ r.dominantStates, ∀ e ∈ rest, e.2 ≤ d.2) ∧
      ∀ e ∈ states, e ∉ r.dominantStates → ∀ d ∈ r.dominantStates, e.2 ≤ d.2 := by
  have hsorted := jsSort_sorted states
  have hperm := jsSort_perm states
  have hcross : ∀ d ∈ (jsSort compareDesc states).take 10,
      ∀ e ∈ (jsSort compareDesc states).drop 10, e.2 ≤ d.2 := by
    intro d hd e he
    have hs : List.Sorted (fun a b : Entry α => b.2 ≤ a.2) (jsSort compareDesc states) := hsorted
    exact hs.rel_of_mem_take_of_mem_drop hd he
  refine ⟨_, analyzeQuantumData_ok m states h, ?_, ?_, ?_, ?_, ?_, ?_⟩
  · show ((jsSort compareDesc states).take 10).length = _
    rw [List.length_take, jsSort_length]
  · show List.Pairwise _ (((jsSort compareDesc states).take 10).map Prod.snd)
    rw [List.pairwise_map]
    exact (hsorted.sublist (List.take_sublist _ _)).imp (fun hab => hab)
  · have hk : ((jsSort compareDesc states).map Prod.fst).Nodup :=
      ((hperm.map Prod.fst).nodup_iff).mpr hkeys
    exact hk.sublist ((List.take_sublist 10 _).map Prod.fst)
  · intro d hd
    exact hperm.mem_iff.mp (List.mem_of_mem_take hd)
  · refine ⟨(jsSort compareDesc states).drop 10, ?_, hcross⟩
    show ((jsSort compareDesc states).take 10 ++ (jsSort compareDesc states).drop 10).Perm states
    rw [List.take_append_drop]
    exact hperm
  · intro e he hnot d hd
    have he2 : e ∈ (jsSort compareDesc states).take 10 ++ (jsSort compareDesc states).drop 10 := by
      rw [List.take_append_drop]
      exact hperm.mem_iff.mpr he
    rcases List.mem_append.mp he2 with h1 | h1
    · exact absurd h1 hnot
    · exact hcross d hd e h1


/-! ## Failure on the empty distribution -/

/-- C9: `analyzeQuantumData` returns a result exactly on the non-empty distributions.
On the empty one the read `sortedStates[sortedStates.length - 1]` is `undefined` and
the call fails with the `TypeError` of `undefined[1]`; on a non-empty one both index
reads are in range and the divisor `states.length` of `mean` and `variance` is not
zero. -/
theorem analyzeQuantumData_returns_iff (m : JsMath α) (states : List (Entry α)) :
    ((∃ r, analyzeQuantumData m states = Except.ok r) ↔ states ≠ []) ∧
    analyzeQuantumData m [] = Except.error undefinedIndexError ∧
    jsIndex (jsSort compareDesc ([] : List (Entry α)))
      (((jsSort compareDesc ([] : List (Entry α))).length : Int) - 1) = none ∧
    (states ≠ [] →
      (jsIndex (jsSort compareDesc states)
        (((jsSort compareDesc states).length : Int) - 1)).isSome = true ∧
      (jsIndex (jsSort compareDesc states) 0).isSome = true ∧
      ((jsSort compareDesc states).length : α) ≠ 0) := by
  have hempty : analyzeQuantumData m ([] : List (Entry α)) = Except.error undefinedIndexError := by
    simp [analyzeQuantumData, jsSort, jsIndex]
  refine ⟨⟨?_, ?_⟩, hempty, ?_, ?_⟩
  · rintro ⟨r, hr⟩ h0
    rw [h0, hempty] at hr
    cases hr
  · intro h
    exact ⟨_, analyzeQuantumData_ok m states h⟩
  · simp [jsSort, jsIndex]
  · intro h
    have hne := jsSort_ne_nil h
    refine ⟨?_, ?_, ?_⟩
    · rw [jsIndex_last _ hne]; rfl
    · rw [jsIndex_zero, List.head?_eq_head hne]; rfl
    · have hpos : 0 < (jsSort compareDesc states).length := List.length_pos.mpr hne
      exact_mod_cast (Nat.pos_iff_ne_zero.mp hpos)

/-! ## One fetch step -/

/-- C10 (as stated, refuted): from the initial state, an ok response whose JSON body
is the empty object `{}` leaves `loading = false`, `error = null` and
`analysis = null`: neither an error nor an analysis. -/
theorem fetchQuantumData_no_probabilities_counterexample :
    (fetchQuantumData (JsMath.mk Real.sqrt (Real.logb 2)) (fun _ => Except.error "unsupported")
        initialState (FetchOutcome.response true 200 (Except.ok (Json.obj [])))).loading = false ∧
    (fetchQuantumData (JsMath.mk Real.sqrt (Real.logb 2)) (fun _ => Except.error "unsupported")
        initialState (FetchOutcome.response true 200 (Except.ok (Json.obj [])))).error = none ∧
    (fetchQuantumData (JsMath.mk Real.sqrt (Real.logb 2)) (fun _ => Except.error "unsupported")
        initialState (FetchOutcome.response true 200 (Except.ok (Json.obj [])))).analysis = none :=
  ⟨rfl, rfl, rfl⟩

/-- C10 (amended): after one `fetchQuantumData` call, whatever the outcome, `loading`
is false and one of three holds: `error` is non-null; or the response was ok, its body
has a truthy `probabilities`, and `analysis` is the analysis of it with `error` null;
or the response was ok, its body has no truthy `probabilities`, `error` is null and
`analysis` is what it was before the call. -/
theorem fetchQuantumData_outcome (m : JsMath α)
    (other : Json α → Except String (AnalysisResult α)) (s : PageState α)
    (o : FetchOutcome α) :
    (fetchQuantumData m other s o).loading = false ∧
    ((fetchQuantumData m other s o).error ≠ none ∨
     (∃ status result p a, o = FetchOutcome.response true status (Except.ok result) ∧
        getProbabilities result = Except.ok (some p) ∧ truthy p = true ∧
        analyzeJson m other p = Except.ok a ∧
        (fetchQuantumData m other s o).analysis = some a ∧
        (fetchQuantumData m other s o).error = none ∧
        (fetchQuantumData m other s o).data = some result) ∨
     (∃ status result, o = FetchOutcome.response true status (Except.ok result) ∧
        (getProbabilities result = Except.ok none ∨
          ∃ p, getProbabilities result = Except.ok (some p) ∧ truthy p = false) ∧
        (fetchQuantumData m other s o).analysis = s.analysis ∧
        (fetchQuantumData m other s o).error = none ∧
        (fetchQuantumData m other s o).data = some result)) := by
  refine ⟨rfl, ?_⟩
  cases o with
  | rejected message => left; simp [fetchQuantumData, fetchTry]
  | response ok status body =>
    cases ok with
    | false => left; simp [fetchQuantumData, fetchTry]
    | true =>
      cases body with
      | error message => left; simp [fetchQuantumData, fetchTry]
      | ok result =>
        cases hg : getProbabilities result with
        | error message => left; simp [fetchQuantumData, fetchTry, hg]
        | ok v =>
          cases v with
          | none =>
            right; right
            exact ⟨status, result, rfl, Or.inl hg, by simp [fetchQuantumData, fetchTry, hg]⟩
          | some p =>
            cases ht : truthy p with
            | false =>
              right; right
              exact ⟨status, result, rfl, Or.inr ⟨p, hg, ht⟩,
                by simp [fetchQuantumData, fetchTry, hg, ht]⟩
            | true =>
              cases ha : analyzeJson m other p with
              | error message => left; simp [fetchQuantumData, fetchTry, hg, ht, ha]
              | ok a =>
                right; left
                exact ⟨status, result, p, a, rfl, hg, ht, ha,
                  by simp [fetchQuantumData, fetchTry, hg, ht, ha]⟩

/-! ## Entropy over the reals -/

section Entropy

/-- The entropy fold of page.js lines 57-59 as a sum over the input entries. -/
theorem entropy_eq_neg_sum (m : JsMath α) (states : List (Entry α)) (h : states ≠ []) :
    ∃ r, analyzeQuantumData m states = Except.ok r ∧
      r.entropy = -(states.map (fun e => if e.2 > 0 then e.2 * m.log2 e.2 else 0)).sum := by
  refine ⟨_, analyzeQuantumData_ok m states h, ?_⟩
  simp only [foldl_entropy_eq_sum, zero_add]
  congr 1
  exact ((jsSort_perm states).map _).sum_eq

theorem sum_nonpos_of_forall {β : Type} (f : β → ℝ) (l : List β) (hf : ∀ e ∈ l, f e ≤ 0) :
    (l.map f).sum ≤ 0 := by
  induction l with
  | nil => simp
  | cons x xs ih =>
    have h1 := hf x (List.mem_cons_self _ _)
    have h2 := ih (fun e he => hf e (List.mem_cons_of_mem _ he))
    simp only [List.map_cons, List.sum_cons]
    linarith

theorem forall_eq_zero_of_sum_eq_zero {β : Type} (f : β → ℝ) (l : List β)
    (hf : ∀ e ∈ l, f e ≤ 0) (hsum : (l.map f).sum = 0) : ∀ e ∈ l, f e = 0 := by
  induction l with
  | nil => intro e he; cases he
  | cons x xs ih =>
    have h1 := hf x (List.mem_cons_self _ _)
    have h2 := sum_nonpos_of_forall f xs (fun e he => hf e (List.mem_cons_of_mem _ he))
    simp only [List.map_cons, List.sum_cons] at hsum
    have hx : f x = 0 := by linarith
    have hxs : (xs.map f).sum = 0 := by linarith
    intro e he
    rcases List.mem_cons.mp he with h3 | h3
    · rw [h3]; exact hx
    · exact ih (fun e he => hf e (List.mem_cons_of_mem _ he)) hxs e h3

theorem sum_eq_zero_of_forall {β : Type} (f : β → ℝ) (l : List β) (hf : ∀ e ∈ l, f e = 0) :
    (l.map f).sum = 0 := by
  induction l with
  | nil => simp
  | cons x xs ih =>
    simp only [List.map_cons, List.sum_cons, hf x (List.mem_cons_self _ _),
      ih (fun e he => hf e (List.mem_cons_of_mem _ he)), add_zero]

theorem sum_eq_length_mul {β : Type} (f : β → ℝ) (c : ℝ) (l : List β)
    (hf : ∀ e ∈ l, f e = c) : (l.map f).sum = (l.length : ℝ) * c := by
  induction l with
  | nil => simp
  | cons x xs ih =>
    simp only [List.map_cons, List.sum_cons, hf x (List.mem_cons_self _ _),
      ih (fun e he => hf e (List.mem_cons_of_mem _ he)), List.length_cons]
    push_cast
    ring

theorem sum_eq_countP_one (l : List (Entry ℝ)) (hl : ∀ e ∈ l, e.2 ≠ 1 → e.2 = 0) :
    (l.map Prod.snd).sum = (l.countP (fun e => decide (e.2 = 1)) : ℝ) := by
  induction l with
  | nil => simp
  | cons x xs ih =>
    have ih2 := ih (fun e he => hl e (List.mem_cons_of_mem _ he))
    by_cases hx : x.2 = 1
    · simp only [List.map_cons, List.sum_cons, ih2, List.countP_cons, hx, decide_True, if_true]
      push_cast
      ring
    · have hx0 := hl x (List.mem_cons_self _ _) hx
      simp only [List.map_cons, List.sum_cons, ih2, List.countP_cons, hx, decide_False]
      simp [hx0]

/-- The entropy summand of an entry with probability in `(-∞, 1]` is not positive. -/
theorem entropy_term_nonpos (p : ℝ) (hp : p ≤ 1) :
    (if p > 0 then p * Real.logb 2 p else 0) ≤ 0 := by
  split
  · rename_i hpos
    have hlog : Real.logb 2 p ≤ 0 := Real.logb_nonpos (by norm_num) (le_of_lt hpos) hp
    exact mul_nonpos_of_nonneg_of_nonpos (le_of_lt hpos) hlog
  · exact le_refl _

theorem entropy_term_eq_zero_iff (p : ℝ) (hp0 : 0 ≤ p) :
    (if p > 0 then p * Real.logb 2 p else 0) = 0 ↔ (p ≠ 1 → p = 0) := by
  constructor
  · intro h hne
    by_contra hp
    have hpos : p > 0 := lt_of_le_of_ne hp0 (Ne.symm hp)
    rw [if_pos hpos] at h
    rcases mul_eq_zero.mp h with h1 | h1
    · exact hp h1
    · rw [Real.logb_eq_zero] at h1
      rcases h1 with h2 | h2 | h2 | h2 | h2 | h2
      · norm_num at h2
      · norm_num at h2
      · norm_num at h2
      · exact hp h2
      · exact hne h2
      · linarith
  · intro h
    by_cases h1 : p = 1
    · simp [h1]
    · simp [h h1]


/-- C3 (as stated, refuted): the single entry of probability 2 is non-negative, and
the returned entropy is `-2`. -/
theorem entropy_negative_counterexample :
    (∀ e ∈ [(("0", 2) : Entry ℝ)], 0 ≤ e.2) ∧
    ∃ r, analyzeQuantumData (JsMath.mk Real.sqrt (Real.logb 2)) [("0", 2)] = Except.ok r ∧
      r.entropy = -2 ∧ r.entropy < 0 := by
  refine ⟨by simp, ?_⟩
  obtain ⟨r, hr, he⟩ :=
    entropy_eq_neg_sum (JsMath.mk Real.sqrt (Real.logb 2)) [(("0", 2) : Entry ℝ)] (by simp)
  have h2 : r.entropy = -2 := by
    rw [he]
    simp
  exact ⟨r, hr, h2, by rw [h2]; norm_num⟩

/-- C3 (amended): on every non-empty distribution whose probabilities all lie in
`[0, 1]` the returned entropy is greater than or equal to 0. -/
theorem analyzeQuantumData_entropy_nonneg (states : List (Entry ℝ)) (h : states ≠ [])
    (hp : ∀ e ∈ states, 0 ≤ e.2 ∧ e.2 ≤ 1) :
    ∃ r, analyzeQuantumData (JsMath.mk Real.sqrt (Real.logb 2)) states = Except.ok r ∧
      0 ≤ r.entropy := by
  obtain ⟨r, hr, he⟩ := entropy_eq_neg_sum (JsMath.mk Real.sqrt (Real.logb 2)) states h
  refine ⟨r, hr, ?_⟩
  rw [he]
  have := sum_nonpos_of_forall (fun e : Entry ℝ => if e.2 > 0 then e.2 * Real.logb 2 e.2 else 0)
    states (fun e he => entropy_term_nonpos e.2 (hp e he).2)
  linarith

/-- C4 (as stated, refuted): the single entry of probability 0 is non-negative and
has entropy 0, yet no state has probability 1. -/
theorem entropy_zero_counterexample :
    (∀ e ∈ [(("0", 0) : Entry ℝ)], 0 ≤ e.2) ∧
    (∃ r, analyzeQuantumData (JsMath.mk Real.sqrt (Real.logb 2)) [("0", 0)] = Except.ok r ∧
      r.entropy = 0) ∧
    ¬ OneHot [(("0", 0) : Entry ℝ)] := by
  refine ⟨by simp, ?_, ?_⟩
  · obtain ⟨r, hr, he⟩ :=
      entropy_eq_neg_sum (JsMath.mk Real.sqrt (Real.logb 2)) [(("0", 0) : Entry ℝ)] (by simp)
    exact ⟨r, hr, by rw [he]; simp⟩
  · simp [OneHot]

/-- C4 (amended): on every non-empty distribution of non-negative probabilities that
sum to 1, the returned entropy is 0 if and only if exactly one state has probability
1 and every other state has probability 0. -/
theorem analyzeQuantumData_entropy_eq_zero_iff (states : List (Entry ℝ)) (h : states ≠ [])
    (hp : ∀ e ∈ states, 0 ≤ e.2) (hsum : (states.map Prod.snd).sum = 1) :
    ∃ r, analyzeQuantumData (JsMath.mk Real.sqrt (Real.logb 2)) states = Except.ok r ∧
      (r.entropy = 0 ↔ OneHot states) := by
  obtain ⟨r, hr, he⟩ := entropy_eq_neg_sum (JsMath.mk Real.sqrt (Real.logb 2)) states h
  refine ⟨r, hr, ?_⟩
  rw [he, neg_eq_zero]
  have hle1 : ∀ e ∈ states, e.2 ≤ 1 := by
    intro e he
    have hnn : ∀ x ∈ states.map Prod.snd, (0 : ℝ) ≤ x := by
      intro x hx
      obtain ⟨e, he, rfl⟩ := List.mem_map.mp hx
      exact hp e he
    have := List.single_le_sum hnn e.2 (List.mem_map_of_mem _ he)
    linarith
  constructor
  · intro h0
    have hall := forall_eq_zero_of_sum_eq_zero
      (fun e : Entry ℝ => if e.2 > 0 then e.2 * Real.logb 2 e.2 else 0) states
      (fun e he => entropy_term_nonpos e.2 (hle1 e he)) h0
    have h01 : ∀ e ∈ states, e.2 ≠ 1 → e.2 = 0 :=
      fun e he => (entropy_term_eq_zero_iff e.2 (hp e he)).mp (hall e he)
    refine ⟨?_, h01⟩
    have hc := sum_eq_countP_one states h01
    rw [hsum] at hc
    exact_mod_cast hc.symm
  · intro hone
    exact sum_eq_zero_of_forall _ states
      (fun e he => (entropy_term_eq_zero_iff e.2 (hp e he)).mpr (hone.2 e he))

/-- C5: for every `n ≥ 1` and every distribution of `n` states each of probability
`1 / n`, the returned entropy is `log2 n` over the reals, and `dominantStates` has
length `min 10 n`. -/
theorem analyzeQuantumData_uniform_entropy (n : Nat) (states : List (Entry ℝ))
    (hn : 1 ≤ n) (hlen : states.length = n) (hp : ∀ e ∈ states, e.2 = 1 / (n : ℝ)) :
    ∃ r, analyzeQuantumData (JsMath.mk Real.sqrt (Real.logb 2)) states = Except.ok r ∧
      r.entropy = Real.logb 2 n ∧ r.dominantStates.length = min 10 n := by
  have hne : states ≠ [] := by
    intro h0
    rw [h0] at hlen
    simp at hlen
    omega
  have hnpos : (0 : ℝ) < (n : ℝ) := by exact_mod_cast hn
  refine ⟨_, analyzeQuantumData_ok _ states hne, ?_, ?_⟩
  · obtain ⟨r, hr, he⟩ := entropy_eq_neg_sum (JsMath.mk Real.sqrt (Real.logb 2)) states hne
    rw [analyzeQuantumData_ok _ states hne] at hr
    have hr2 := Except.ok.inj hr
    rw [hr2, he]
    have hterm : ∀ e ∈ states,
        (fun e : Entry ℝ => if e.2 > 0 then e.2 * Real.logb 2 e.2 else 0) e
          = -(1 / (n : ℝ)) * Real.logb 2 n := by
      intro e he
      have hpos : (1 : ℝ) / n > 0 := by positivity
      simp only [hp e he, if_pos hpos]
      rw [one_div, Real.logb_inv]
      ring
    rw [sum_eq_length_mul _ _ states hterm, hlen]
    field_simp
  · show ((jsSort compareDesc states).take 10).length = _
    rw [List.length_take, jsSort_length, hlen]

end Entropy

/-! ## The claims at concrete inputs

The distribution `{"00": 0.5, "01": 0.25, "10": 0.25}` is enumerated by
`Object.entries` with the integer-like key `"10"` first. -/

theorem example_sorted :
    jsSort compareDesc [(("10", 1 / 4) : Entry ℝ), ("00", 1 / 2), ("01", 1 / 4)]
      = [("00", 1 / 2), ("10", 1 / 4), ("01", 1 / 4)] := by
  simp only [jsSort, List.insertionSort, List.orderedInsert, compareDesc]
  norm_num

/-- C7 at `{"00": 0.5, "01": 0.25, "10": 0.25}`: three states, total 1, mean 1/3. -/
theorem analyzeQuantumData_totals_witness :
    [(("10", 1 / 4) : Entry ℝ), ("00", 1 / 2), ("01", 1 / 4)] ≠ [] ∧
    ∃ r, analyzeQuantumData (JsMath.mk Real.sqrt (Real.logb 2)) [("10", 1 / 4), ("00", 1 / 2), ("01", 1 / 4)] = Except.ok r ∧
      r.totalStates = 3 ∧ r.totalProbability = 1 ∧ r.mean = 1 / 3 := by
  refine ⟨by simp, ?_⟩
  obtain ⟨r, hr, h1, h2, h3⟩ := analyzeQuantumData_totals (JsMath.mk Real.sqrt (Real.logb 2)) [(("10", 1 / 4) : Entry ℝ), ("00", 1 / 2), ("01", 1 / 4)] (by simp)
  have h2b : r.totalProbability = 1 := by rw [h2]; norm_num
  have h1b : r.totalStates = 3 := by rw [h1]; rfl
  exact ⟨r, hr, h1b, h2b, by rw [h3, h2b, h1b]; norm_num⟩

/-- C8 at `{"a": 0.001, "b": 0.999}`: only `"b"` is significant. -/
theorem analyzeQuantumData_significant_witness :
    [(("a", 0.001) : Entry ℝ), ("b", 0.999)] ≠ [] ∧
    ∃ r, analyzeQuantumData (JsMath.mk Real.sqrt (Real.logb 2)) [("a", 0.001), ("b", 0.999)] = Except.ok r ∧
      r.significantStates = 1 ∧ r.totalStates = 2 := by
  refine ⟨by simp, ?_⟩
  obtain ⟨r, hr, h1, -, -⟩ :=
    analyzeQuantumData_significant (JsMath.mk Real.sqrt (Real.logb 2)) [(("a", 0.001) : Entry ℝ), ("b", 0.999)] (by simp)
  have hr2 := analyzeQuantumData_ok (JsMath.mk Real.sqrt (Real.logb 2)) [(("a", 0.001) : Entry ℝ), ("b", 0.999)] (by simp)
  rw [hr] at hr2
  have hr3 := Except.ok.inj hr2
  refine ⟨r, hr, ?_, by rw [hr3]; exact jsSort_length _⟩
  rw [h1]
  simp only [List.countP_cons, List.countP_nil]
  norm_num

/-- C6 at `{"00": 0.5, "01": 0.25, "10": 0.25}`: the population variance is 1/72. -/
theorem analyzeQuantumData_variance_witness :
    [(("10", 1 / 4) : Entry ℝ), ("00", 1 / 2), ("01", 1 / 4)] ≠ [] ∧
    ∃ r, analyzeQuantumData (JsMath.mk Real.sqrt (Real.logb 2)) [("10", 1 / 4), ("00", 1 / 2), ("01", 1 / 4)] = Except.ok r ∧
      r.variance = 1 / 72 ∧ r.stdDev = Real.sqrt (1 / 72) := by
  refine ⟨by simp, ?_⟩
  obtain ⟨r, hr, h1, h2⟩ := analyzeQuantumData_variance (JsMath.mk Real.sqrt (Real.logb 2)) [(("10", 1 / 4) : Entry ℝ), ("00", 1 / 2), ("01", 1 / 4)] (by simp)
  have hr2 := analyzeQuantumData_ok (JsMath.mk Real.sqrt (Real.logb 2)) [(("10", 1 / 4) : Entry ℝ), ("00", 1 / 2), ("01", 1 / 4)] (by simp)
  rw [hr] at hr2
  have hr3 := Except.ok.inj hr2
  have hm : r.mean = 1 / 3 := by
    rw [hr3]
    simp only [jsSort_length]
    norm_num
  have hv : r.variance = 1 / 72 := by
    rw [h1, hm]
    norm_num
  exact ⟨r, hr, hv, by rw [h2, hv]⟩

/-- C2 at `{"00": 0.5, "01": 0.25, "10": 0.25}`: maximum 0.5, minimum 0.25. -/
theorem analyzeQuantumData_extrema_witness :
    [(("10", 1 / 4) : Entry ℝ), ("00", 1 / 2), ("01", 1 / 4)] ≠ [] ∧
    ∃ r, analyzeQuantumData (JsMath.mk Real.sqrt (Real.logb 2)) [("10", 1 / 4), ("00", 1 / 2), ("01", 1 / 4)] = Except.ok r ∧
      r.maxProbability = 1 / 2 ∧ r.minProbability = 1 / 4 ∧
      ∀ e ∈ [(("10", 1 / 4) : Entry ℝ), ("00", 1 / 2), ("01", 1 / 4)], r.minProbability ≤ e.2 ∧ e.2 ≤ r.maxProbability := by
  refine ⟨by simp, ?_⟩
  obtain ⟨r, hr, -, -, h3⟩ := analyzeQuantumData_extrema (JsMath.mk Real.sqrt (Real.logb 2)) [(("10", 1 / 4) : Entry ℝ), ("00", 1 / 2), ("01", 1 / 4)] (by simp)
  have hr2 := analyzeQuantumData_ok (JsMath.mk Real.sqrt (Real.logb 2)) [(("10", 1 / 4) : Entry ℝ), ("00", 1 / 2), ("01", 1 / 4)] (by simp)
  rw [hr] at hr2
  have hr3 := Except.ok.inj hr2
  refine ⟨r, hr, ?_, ?_, h3⟩
  · rw [hr3]
    simp only [example_sorted]
    rfl
  · rw [hr3]
    simp only [example_sorted]
    rfl

/-- C1 at `{"00": 0.5, "01": 0.25, "10": 0.25}`: three dominant states, `("00", 0.5)`
first, then the two entries of probability 0.25. -/
theorem analyzeQuantumData_dominant_witness :
    ([(("10", 1 / 4) : Entry ℝ), ("00", 1 / 2), ("01", 1 / 4)] ≠ [] ∧ ([(("10", 1 / 4) : Entry ℝ), ("00", 1 / 2), ("01", 1 / 4)].map Prod.fst).Nodup) ∧
    ∃ r, analyzeQuantumData (JsMath.mk Real.sqrt (Real.logb 2)) [("10", 1 / 4), ("00", 1 / 2), ("01", 1 / 4)] = Except.ok r ∧
      r.dominantStates = [("00", 1 / 2), ("10", 1 / 4), ("01", 1 / 4)] ∧
      r.dominantStates.length = min 10 3 ∧
      List.Sorted (fun p q => p ≥ q) (r.dominantStates.map Prod.snd) := by
  refine ⟨⟨by simp, by decide⟩, ?_⟩
  obtain ⟨r, hr, h1, h2, -⟩ := analyzeQuantumData_dominant (JsMath.mk Real.sqrt (Real.logb 2)) [(("10", 1 / 4) : Entry ℝ), ("00", 1 / 2), ("01", 1 / 4)] (by simp) (by decide)
  have hr2 := analyzeQuantumData_ok (JsMath.mk Real.sqrt (Real.logb 2)) [(("10", 1 / 4) : Entry ℝ), ("00", 1 / 2), ("01", 1 / 4)] (by simp)
  rw [hr] at hr2
  have hr3 := Except.ok.inj hr2
  refine ⟨r, hr, ?_, h1, h2⟩
  rw [hr3]
  simp only [example_sorted]
  rfl

/-- C3 (amended) at `{"00": 0.5, "01": 0.25, "10": 0.25}`. -/
theorem analyzeQuantumData_entropy_nonneg_witness :
    ([(("10", 1 / 4) : Entry ℝ), ("00", 1 / 2), ("01", 1 / 4)] ≠ [] ∧ ∀ e ∈ [(("10", 1 / 4) : Entry ℝ), ("00", 1 / 2), ("01", 1 / 4)], 0 ≤ e.2 ∧ e.2 ≤ 1) ∧
    ∃ r, analyzeQuantumData (JsMath.mk Real.sqrt (Real.logb 2)) [("10", 1 / 4), ("00", 1 / 2), ("01", 1 / 4)] = Except.ok r ∧ 0 ≤ r.entropy := by
  have hp : ∀ e ∈ [(("10", 1 / 4) : Entry ℝ), ("00", 1 / 2), ("01", 1 / 4)], 0 ≤ e.2 ∧ e.2 ≤ 1 := by
    intro e he
    simp only [List.mem_cons, List.mem_singleton, List.not_mem_nil, or_false] at he
    rcases he with rfl | rfl | rfl <;> norm_num
  exact ⟨⟨by simp, hp⟩, analyzeQuantumData_entropy_nonneg [(("10", 1 / 4) : Entry ℝ), ("00", 1 / 2), ("01", 1 / 4)] (by simp) hp⟩

/-- C4 (amended) at `{"0": 1, "1": 0}`: the entropy is 0 and the distribution is
one-hot. -/
theorem analyzeQuantumData_entropy_eq_zero_iff_witness :
    ([(("0", 1) : Entry ℝ), ("1", 0)] ≠ [] ∧ (∀ e ∈ [(("0", 1) : Entry ℝ), ("1", 0)], 0 ≤ e.2) ∧
      ([(("0", 1) : Entry ℝ), ("1", 0)].map Prod.snd).sum = 1) ∧
    ∃ r, analyzeQuantumData (JsMath.mk Real.sqrt (Real.logb 2)) [("0", 1), ("1", 0)] = Except.ok r ∧
      (r.entropy = 0 ↔ OneHot [(("0", 1) : Entry ℝ), ("1", 0)]) := by
  have hp : ∀ e ∈ [(("0", 1) : Entry ℝ), ("1", 0)], 0 ≤ e.2 := by
    intro e he
    simp only [List.mem_cons, List.mem_singleton, List.not_mem_nil, or_false] at he
    rcases he with rfl | rfl <;> norm_num
  have hsum : ([(("0", 1) : Entry ℝ), ("1", 0)].map Prod.snd).sum = 1 := by norm_num
  exact ⟨⟨by simp, hp, hsum⟩,
    analyzeQuantumData_entropy_eq_zero_iff [(("0", 1) : Entry ℝ), ("1", 0)] (by simp) hp hsum⟩

/-- C5 at 15 states of probability 1/15: entropy `log2 15`, ten dominant states. -/
theorem analyzeQuantumData_uniform_entropy_witness :
    ∃ r, analyzeQuantumData (JsMath.mk Real.sqrt (Real.logb 2))
        ((List.range 15).map (fun i => ((toString i, 1 / 15) : Entry ℝ))) = Except.ok r ∧
      r.entropy = Real.logb 2 15 ∧ r.dominantStates.length = 10 := by
  obtain ⟨r, hr, h1, h2⟩ := analyzeQuantumData_uniform_entropy 15
    ((List.range 15).map (fun i => ((toString i, 1 / 15) : Entry ℝ))) (by norm_num)
    (by simp) (by intro e he; obtain ⟨i, -, rfl⟩ := List.mem_map.mp he; norm_num)
  exact ⟨r, hr, by rw [h1]; norm_num, by rw [h2]; rfl⟩

/-! ## The same function on IEEE doubles -/

theorem insertionSort_congr {β : Type} (r₁ r₂ : β → β → Prop) [DecidableRel r₁]
    [DecidableRel r₂] (h : ∀ a b, r₁ a b ↔ r₂ a b) (l : List β) :
    l.insertionSort r₁ = l.insertionSort r₂ := by
  have hins : ∀ (a : β) (t : List β), t.orderedInsert r₁ a = t.orderedInsert r₂ a := by
    intro a t
    induction t with
    | nil => rfl
    | cons b t ih =>
      by_cases hab : r₁ a b
      · simp [List.orderedInsert, hab, (h a b).mp hab]
      · have hab2 : ¬ r₂ a b := fun h2 => hab ((h a b).mpr h2)
        simp [List.orderedInsert, hab, hab2, ih]
  induction l with
  | nil => rfl
  | cons a t ih => simp [List.insertionSort, ih, hins]

/-- Over exact field arithmetic the general embedding is `analyzeQuantumData`. -/
theorem analyzeQuantumDataWith_fieldArith (m : JsMath α) (states : List (Entry α)) :
    analyzeQuantumDataWith (fieldArith m) states = analyzeQuantumData m states := by
  have hsort : states.insertionSort
        (fun a b => (fieldArith m).gt ((fieldArith m).sub b.2 a.2) (fieldArith m).zero = false)
      = jsSort compareDesc states := by
    unfold jsSort
    apply insertionSort_congr
    intro a b
    simp [fieldArith, compareDesc]
  simp only [analyzeQuantumDataWith, hsort]
  simp only [analyzeQuantumData, fieldArith, decide_eq_true_eq]
  generalize jsIndex (jsSort compareDesc states)
    (((jsSort compareDesc states).length : Int) - 1) = last
  generalize jsIndex (jsSort compareDesc states) 0 = first
  cases last <;> cases first <;> rfl

/-- On a non-empty input the general embedding returns the record of lines 64-75. -/
theorem analyzeQuantumDataWith_total {ν : Type} (A : JsArith ν) (states : List (String × ν))
    (h : states ≠ []) :
    ∃ r, analyzeQuantumDataWith A states = Except.ok r ∧
      r.totalProbability = states.foldl (fun sum e => A.add sum e.2) A.zero ∧
      r.variance = A.div
        ((states.insertionSort (fun a b => A.gt (A.sub b.2 a.2) A.zero = false)).foldl
          (fun sum e => A.add sum (A.sq (A.sub e.2 r.mean))) A.zero)
        (A.ofNat states.length) ∧
      r.mean = A.div r.totalProbability (A.ofNat states.length) := by
  have hlen : (states.insertionSort
      (fun a b => A.gt (A.sub b.2 a.2) A.zero = false)).length = states.length :=
    List.length_insertionSort _ _
  have hne : states.insertionSort (fun a b => A.gt (A.sub b.2 a.2) A.zero = false) ≠ [] := by
    intro h0
    rw [h0] at hlen
    exact h (List.length_eq_zero.mp hlen.symm)
  have h0 := jsIndex_zero (states.insertionSort (fun a b => A.gt (A.sub b.2 a.2) A.zero = false))
  rw [List.head?_eq_head hne] at h0
  have h1 := jsIndex_last _ hne
  simp only [analyzeQuantumDataWith, h0, h1]
  refine ⟨_, rfl, rfl, ?_, ?_⟩
  · simp only [hlen]
  · simp only [hlen]

theorem Dbl.toRat_ne_add (a b c : Int) (h : c ≠ a + b) :
    Dbl.toRat (Dbl.fin c) ≠ Dbl.toRat (Dbl.fin a) + Dbl.toRat (Dbl.fin b) := by
  intro heq
  simp only [Dbl.toRat] at heq
  rw [← add_div] at heq
  have hpos : (2 : ℚ) ^ 1074 ≠ 0 := by positivity
  have := (div_left_inj' hpos).mp heq
  exact h (by exact_mod_cast this)

/-- C7 (as stated, refuted): on doubles the distribution `{"a": 0.1, "b": 0.2}` has
`totalProbability` `0.30000000000000004`, the double `5404319552844596 * 2 ^ (-54)`,
which is not the sum of the two input probabilities. -/
theorem totalProbability_rounding_counterexample :
    (Dbl.ofDecimal 1 10 = Dbl.dyadic 7205759403792794 (-56) ∧
      Dbl.ofDecimal 2 10 = Dbl.dyadic 7205759403792794 (-55)) ∧
    ∀ m : JsMath Dbl,
      ∃ r, analyzeQuantumDataWith (doubleArith m)
          [("a", Dbl.ofDecimal 1 10), ("b", Dbl.ofDecimal 2 10)] = Except.ok r ∧
        r.totalProbability = Dbl.dyadic 5404319552844596 (-54) ∧
        Dbl.toRat r.totalProbability
          ≠ Dbl.toRat (Dbl.ofDecimal 1 10) + Dbl.toRat (Dbl.ofDecimal 2 10) := by
  have ha : Dbl.ofDecimal 1 10 = Dbl.dyadic 7205759403792794 (-56) := by decide
  have hb : Dbl.ofDecimal 2 10 = Dbl.dyadic 7205759403792794 (-55) := by decide
  refine ⟨⟨ha, hb⟩, ?_⟩
  intro m
  obtain ⟨r, hr, ht, -, -⟩ := analyzeQuantumDataWith_total (doubleArith m)
    [("a", Dbl.ofDecimal 1 10), ("b", Dbl.ofDecimal 2 10)] (by simp)
  have ht2 : r.totalProbability = Dbl.dyadic 5404319552844596 (-54) := by
    rw [ht]
    show List.foldl (fun sum e => Dbl.add sum e.2) (Dbl.fin 0)
      [("a", Dbl.ofDecimal 1 10), ("b", Dbl.ofDecimal 2 10)] = Dbl.dyadic 5404319552844596 (-54)
    decide
  refine ⟨r, hr, ht2, ?_⟩
  rw [ht2, ha, hb]
  exact Dbl.toRat_ne_add _ _ _ (by decide)

theorem Dbl.toRat_ne_variance (v mean a b c : Int)
    (h : (3 : Int) * v * (((1 : Nat) <<< 1074 : Nat) : Int)
      ≠ (a - mean) ^ 2 + (b - mean) ^ 2 + (c - mean) ^ 2) :
    Dbl.toRat (Dbl.fin v)
      ≠ ((Dbl.toRat (Dbl.fin a) - Dbl.toRat (Dbl.fin mean)) ^ 2
          + (Dbl.toRat (Dbl.fin b) - Dbl.toRat (Dbl.fin mean)) ^ 2
          + (Dbl.toRat (Dbl.fin c) - Dbl.toRat (Dbl.fin mean)) ^ 2) / 3 := by
  intro heq
  apply h
  have hshift : (((1 : Nat) <<< 1074 : Nat) : ℚ) = (2 : ℚ) ^ 1074 := by
    simp only [Nat.one_shiftLeft, Nat.cast_pow, Nat.cast_ofNat]
  simp only [Dbl.toRat] at heq
  generalize (2 : ℚ) ^ 1074 = u at heq hshift
  have hpos : u ≠ 0 := by
    intro h0
    rw [h0] at hshift
    have h1 : ((1 : Nat) <<< 1074 : Nat) ≠ 0 := by
      rw [Nat.one_shiftLeft]
      positivity
    exact h1 (by exact_mod_cast hshift)
  have key : 3 * (v : ℚ) * u
      = ((a : ℚ) - mean) ^ 2 + ((b : ℚ) - mean) ^ 2 + ((c : ℚ) - mean) ^ 2 := by
    field_simp at heq
    apply mul_right_cancel₀ hpos
    linear_combination heq
  have hcast : (((3 : Int) * v * (((1 : Nat) <<< 1074 : Nat) : Int) : Int) : ℚ)
      = (((a - mean) ^ 2 + (b - mean) ^ 2 + (c - mean) ^ 2 : Int) : ℚ) := by
    rw [Int.cast_mul, Int.cast_mul, Int.cast_natCast, hshift]
    push_cast
    exact key
  exact Int.cast_injective hcast

/-- C6 (as stated, refuted): on doubles the distribution `{"a": 0.3, "b": 0.3,
"c": 0.4}` has `variance` `5124095576030434 * 2 ^ (-61)`, summed over the sorted
array; summing the same squared deviations over the input entries gives
`5124095576030435 * 2 ^ (-61)`, and neither is the exact population variance. -/
theorem variance_order_counterexample :
    (Dbl.ofDecimal 3 10 = Dbl.dyadic 5404319552844595 (-54) ∧
      Dbl.ofDecimal 4 10 = Dbl.dyadic 7205759403792794 (-54)) ∧
    ∀ m : JsMath Dbl,
      ∃ r, analyzeQuantumDataWith (doubleArith m)
          [("a", Dbl.ofDecimal 3 10), ("b", Dbl.ofDecimal 3 10), ("c", Dbl.ofDecimal 4 10)]
          = Except.ok r ∧
        r.mean = Dbl.dyadic 6004799503160661 (-54) ∧
        r.variance = Dbl.dyadic 5124095576030434 (-61) ∧
        Dbl.div
          ([(("a", Dbl.ofDecimal 3 10) : String × Dbl), ("b", Dbl.ofDecimal 3 10),
              ("c", Dbl.ofDecimal 4 10)].foldl
            (fun sum e => Dbl.add sum (Dbl.mul (Dbl.sub e.2 r.mean) (Dbl.sub e.2 r.mean)))
            (Dbl.fin 0))
          (Dbl.ofNat 3) = Dbl.dyadic 5124095576030435 (-61) ∧
        Dbl.toRat r.variance
          ≠ ((Dbl.toRat (Dbl.ofDecimal 3 10) - Dbl.toRat r.mean) ^ 2
              + (Dbl.toRat (Dbl.ofDecimal 3 10) - Dbl.toRat r.mean) ^ 2
              + (Dbl.toRat (Dbl.ofDecimal 4 10) - Dbl.toRat r.mean) ^ 2) / 3 := by
  have ha : Dbl.ofDecimal 3 10 = Dbl.dyadic 5404319552844595 (-54) := by decide
  have hc : Dbl.ofDecimal 4 10 = Dbl.dyadic 7205759403792794 (-54) := by decide
  refine ⟨⟨ha, hc⟩, ?_⟩
  intro m
  obtain ⟨r, hr, ht, hv, hm⟩ := analyzeQuantumDataWith_total (doubleArith m)
    [("a", Dbl.ofDecimal 3 10), ("b", Dbl.ofDecimal 3 10), ("c", Dbl.ofDecimal 4 10)] (by simp)
  have hm2 : r.mean = Dbl.dyadic 6004799503160661 (-54) := by
    rw [hm, ht]
    show Dbl.div (List.foldl (fun sum e => Dbl.add sum e.2) (Dbl.fin 0)
      [("a", Dbl.ofDecimal 3 10), ("b", Dbl.ofDecimal 3 10), ("c", Dbl.ofDecimal 4 10)])
      (Dbl.ofNat 3) = Dbl.dyadic 6004799503160661 (-54)
    decide
  have hv2 : r.variance = Dbl.dyadic 5124095576030434 (-61) := by
    rw [hv, hm2]
    show Dbl.div
      (List.foldl
        (fun sum e => Dbl.add sum
          (Dbl.mul (Dbl.sub e.2 (Dbl.dyadic 6004799503160661 (-54)))
            (Dbl.sub e.2 (Dbl.dyadic 6004799503160661 (-54)))))
        (Dbl.fin 0)
        (List.insertionSort (fun a b => Dbl.gt (Dbl.sub b.2 a.2) (Dbl.fin 0) = false)
          [("a", Dbl.ofDecimal 3 10), ("b", Dbl.ofDecimal 3 10), ("c", Dbl.ofDecimal 4 10)]))
      (Dbl.ofNat 3) = Dbl.dyadic 5124095576030434 (-61)
    decide
  refine ⟨r, hr, hm2, hv2, ?_, ?_⟩
  · rw [hm2]
    decide
  · rw [hv2, hm2, ha, hc]
    exact Dbl.toRat_ne_variance _ _ _ _ _ (by decide)

end Analyzer

end QuantumAnalyzer
